import Mathlib

/-!
Verification of the test-oracle and fixture-data engine of the
`portrait-pw-solution` repository (a Playwright test suite for an
inventory-management web application).

The embedding translates the pure logic of the repository's helper modules:

* `src/tests/helpers/storage-helpers.ts` — persistence accessor and fixture
  seeder (`getProductsFromLocalStorage`, `getLowStockProducts`,
  `clearAllProducts`, `ensureProductsExist`);
* `src/tests/helpers/dashboard-helpers.ts` — `calculateExpectedStats`;
* `src/tests/helpers/products-helpers.ts` — `filterProductsBySearch`,
  `filterProductsByCategory`, `sortProducts`, `applyFilters`;
* `src/tests/helpers/inventory-helpers.ts` — `calculateExpectedStock`,
  `isValidAdjustment`.

JavaScript numbers carry exact decimal values in all the data these helpers
handle; they are embedded as `ℚ` (prices) and `ℤ` (stocks and deltas), which
matches the spec's requirement of exact (non-floating-accumulated-error)
summation semantics.  The browser's `localStorage` slot under the fixed key
is embedded as `Option (List Product)`: `none` is a key that was never
initialized, `some l` a key holding the JSON serialization of `l` (every
writer in the repository stores `JSON.stringify` of an array, which is never
the empty string, so JavaScript truthiness of the raw value coincides with
`Option.isSome`).
-/

namespace QAOracle

/-- The persisted entity, `Product` from `types/product.types.ts` (the shape is
also spelled out in `src/tests/helpers/dashboard-helpers.ts`): surrogate `id`,
natural key `sku`, `name`, `description`, `category` (one of Electronics,
Accessories, Software, Hardware — kept as `String`, as the code compares it as
a string), `price`, `stock`, `lowStockThreshold`, optional `imageUrl`, and the
two timestamps. -/
structure Product where
  id : String
  sku : String
  name : String
  description : String
  category : String
  price : ℚ
  stock : Int
  lowStockThreshold : Int
  imageUrl : Option String
  createdAt : String
  updatedAt : String
  deriving DecidableEq

/-- `TestProductData = Omit<Product, 'id' | 'createdAt' | 'updatedAt'>` (the
fixture record; the definition is quoted in `src/docs/BITACORA.md`). -/
structure TestProductData where
  sku : String
  name : String
  description : String
  category : String
  price : ℚ
  stock : Int
  lowStockThreshold : Int
  imageUrl : Option String
  deriving DecidableEq

/-- The storage key used by the application (`STORAGE_KEY` in
`src/tests/helpers/storage-helpers.ts`). -/
def STORAGE_KEY : String := "qa_challenge_products"

/-- `getProductsFromLocalStorage` from `src/tests/helpers/storage-helpers.ts`:
reads the raw value under the key and throws
`No products found in localStorage with key: ...` when the value is falsy
(`null`, i.e. never initialized); otherwise parses it.  The store is embedded
already deserialized (see the module docstring), so the falsy test is the
`none` case. -/
def getProductsFromLocalStorage (store : Option (List Product)) :
    Except String (List Product) :=
  match store with
  | none =>
      Except.error ("No products found in localStorage with key: " ++ STORAGE_KEY)
  | some products => Except.ok products

/-- `getProductById` from `src/tests/helpers/storage-helpers.ts`. -/
def getProductById (products : List Product) (productId : String) :
    Option Product :=
  products.find? (fun p => p.id == productId)

/-- `getLowStockProducts` from `src/tests/helpers/storage-helpers.ts`:
`products.filter (p => p.stock <= p.lowStockThreshold)`. -/
def getLowStockProducts (products : List Product) : List Product :=
  products.filter (fun p => p.stock ≤ p.lowStockThreshold)

/-- `clearAllProducts` from `src/tests/helpers/storage-helpers.ts`: overwrites
the key with `JSON.stringify([])`. -/
def clearAllProducts (_store : Option (List Product)) : Option (List Product) :=
  some []

/-- The dashboard statistics snapshot returned by `calculateExpectedStats`
in `src/tests/helpers/dashboard-helpers.ts`. -/
structure ExpectedStats where
  totalProducts : Nat
  lowStockItems : Nat
  totalValue : ℚ
  deriving DecidableEq

/-- `calculateExpectedStats` from `src/tests/helpers/dashboard-helpers.ts`:
`totalProducts = products.length`,
`lowStockItems = getLowStockProducts(products).length`,
`totalValue = products.reduce((sum, p) => sum + p.price * p.stock, 0)`. -/
def calculateExpectedStats (products : List Product) : ExpectedStats :=
  let totalProducts := products.length
  let lowStockItems := (getLowStockProducts products).length
  let totalValue := products.foldl (fun sum p => sum + p.price * (p.stock : ℚ)) 0
  { totalProducts := totalProducts, lowStockItems := lowStockItems,
    totalValue := totalValue }

/-- `calculateExpectedStock` from `src/tests/helpers/inventory-helpers.ts`. -/
def calculateExpectedStock (currentStock adjustment : Int) : Int :=
  currentStock + adjustment

/-- `isValidAdjustment` from `src/tests/helpers/inventory-helpers.ts`:
`currentStock + adjustment >= 0`. -/
def isValidAdjustment (currentStock adjustment : Int) : Bool :=
  currentStock + adjustment ≥ 0

/-! ## Business-logic replicator: search, category filter, sort
(`src/tests/helpers/products-helpers.ts`) -/

/-- Does `needle` start the list `hay`?  Helper for the embedding of
JavaScript's `String.prototype.includes`. -/
def charListStartsWith : List Char → List Char → Bool
  | [], _ => true
  | _ :: _, [] => false
  | a :: as, b :: bs => a == b && charListStartsWith as bs

/-- Substring containment on character lists: some suffix of `hay` starts with
`needle`. -/
def charListIncludes : List Char → List Char → Bool
  | [], needle => needle.isEmpty
  | hay@(_ :: t), needle => charListStartsWith needle hay || charListIncludes t needle

/-- JavaScript's `hay.includes(needle)` on strings: `needle` occurs as a
contiguous substring of `hay`. -/
def strIncludes (hay needle : String) : Bool :=
  charListIncludes hay.data needle.data

/-- JavaScript's `toLowerCase()`, embedded per character (`Char.toLower`
lower-cases the ASCII letters, which is what `toLowerCase` does on the ASCII
data the suite uses). -/
def strToLower (s : String) : String :=
  String.mk (s.data.map Char.toLower)

/-- `filterProductsBySearch` from `src/tests/helpers/products-helpers.ts`:
empty term returns the list; otherwise keep the products whose lower-cased
`name` or `sku` includes the lower-cased term. -/
def filterProductsBySearch (products : List Product) (searchTerm : String) :
    List Product :=
  if searchTerm = "" then products
  else
    let lowerSearch := strToLower searchTerm
    products.filter (fun p =>
      strIncludes (strToLower p.name) lowerSearch ||
        strIncludes (strToLower p.sku) lowerSearch)

/-- `filterProductsByCategory` from `src/tests/helpers/products-helpers.ts`:
the sentinel `"all"` returns the list; otherwise keep the products whose
`category` equals the argument. -/
def filterProductsByCategory (products : List Product) (category : String) :
    List Product :=
  if category = "all" then products
  else products.filter (fun p => p.category == category)

/-- The three sort fields accepted by `sortProducts`
(`sortBy: 'name' | 'price' | 'stock'`). -/
inductive SortField where
  | name
  | price
  | stock
  deriving DecidableEq

/-- Models JavaScript's `a.localeCompare(b)` as a three-way comparison in the
code-point lexicographic order on strings (the locale-aware collation of the
browser is not observable from the code; on the ASCII data the suite uses the
default locale's order is the lexicographic one). -/
def localeCompare (a b : String) : Int :=
  if a < b then -1 else if b < a then 1 else 0

/-- The comparator passed to `sort` inside `sortProducts`
(`src/tests/helpers/products-helpers.ts`): `a.name.localeCompare(b.name)`,
`a.price - b.price`, or `a.stock - b.stock`. -/
def sortComparator : SortField → Product → Product → ℚ
  | SortField.name, a, b => (localeCompare a.name b.name : ℚ)
  | SortField.price, a, b => a.price - b.price
  | SortField.stock, a, b => ((a.stock - b.stock : Int) : ℚ)

/-- The boolean "keep `a` before `b`" relation of the comparator: the sort
keeps the existing order whenever the comparator is `≤ 0`. -/
def sortLe (sortBy : SortField) (a b : Product) : Bool :=
  sortComparator sortBy a b ≤ 0

/-- `sortProducts` from `src/tests/helpers/products-helpers.ts`:
`[...products].sort(comparator)`.  `Array.prototype.sort` is required to be
stable (ES2019), so it is embedded as the stable merge sort with the source's
comparator. -/
def sortProducts (products : List Product) (sortBy : SortField) : List Product :=
  products.mergeSort (sortLe sortBy)

/-- The ascending order on the sorted field, as the spec states it:
lexicographic on `name`, numeric on `price` and `stock`. -/
def sortKeyLE : SortField → Product → Product → Prop
  | SortField.name, a, b => a.name ≤ b.name
  | SortField.price, a, b => a.price ≤ b.price
  | SortField.stock, a, b => a.stock ≤ b.stock

/-- Substring containment by the empty needle always holds (JavaScript's
`includes('')` is `true`). -/
theorem charListIncludes_nil (hay : List Char) : charListIncludes hay [] = true := by
  induction hay with
  | nil => rfl
  | cons a t ih => simp [charListIncludes, charListStartsWith]

/-- Lower-casing the empty string leaves no characters. -/
theorem strToLower_empty_data : (strToLower "").data = [] := rfl

/-- The spec's search predicate: the term occurs in the field as a
case-insensitive substring. -/
def ciSubstringMatch (term field : String) : Bool :=
  strIncludes (strToLower field) (strToLower term)

/-- The comparator relation agrees with the ascending order on the sorted
field. -/
theorem sortLe_iff (sortBy : SortField) (a b : Product) :
    sortLe sortBy a b = true ↔ sortKeyLE sortBy a b := by
  cases sortBy with
  | name =>
      simp only [sortLe, sortComparator, sortKeyLE, localeCompare,
        decide_eq_true_eq]
      rcases lt_trichotomy a.name b.name with h | h | h
      · simp only [if_pos h]
        norm_num [le_of_lt h]
      · simp only [h, lt_irrefl, if_neg, if_pos, not_lt]
        norm_num
      · rw [if_neg (asymm h), if_pos h]
        norm_num [not_le.mpr h]
  | price =>
      simp [sortLe, sortComparator, sortKeyLE, sub_nonpos]
  | stock =>
      simp [sortLe, sortComparator, sortKeyLE, sub_nonpos]

/-- Transitivity of the sort's keep-order relation. -/
theorem sortLe_trans (sortBy : SortField) (a b c : Product) :
    sortLe sortBy a b → sortLe sortBy b c → sortLe sortBy a c := by
  intro hab hbc
  rw [sortLe_iff] at hab hbc ⊢
  cases sortBy with
  | name => exact le_trans hab hbc
  | price => exact le_trans hab hbc
  | stock => exact le_trans hab hbc

/-- Totality of the sort's keep-order relation. -/
theorem sortLe_total (sortBy : SortField) (a b : Product) :
    sortLe sortBy a b || sortLe sortBy b a := by
  rw [Bool.or_eq_true, sortLe_iff, sortLe_iff]
  cases sortBy with
  | name => exact le_total a.name b.name
  | price => exact le_total a.price b.price
  | stock => exact le_total a.stock b.stock

/-! ## `applyFilters` and its options record -/

/-- The category filter values: the sentinel `'all'` or one of the fixed
category enumeration.  Modelled from the spec: `ProductFilterOptions` lives in
`types/product.types.ts`, which is not part of the repository snapshot; the
spec fixes the enumeration {Electronics, Accessories, Software, Hardware} and
the `"all"` sentinel for the category filter. -/
inductive CategoryFilter where
  | all
  | electronics
  | accessories
  | software
  | hardware
  deriving DecidableEq

/-- The string the UI select passes for each category filter value. -/
def CategoryFilter.toName : CategoryFilter → String
  | CategoryFilter.all => "all"
  | CategoryFilter.electronics => "Electronics"
  | CategoryFilter.accessories => "Accessories"
  | CategoryFilter.software => "Software"
  | CategoryFilter.hardware => "Hardware"

/-- `ProductFilterOptions`: the `{searchTerm?, category?, sortBy?}` record of
`applyFilters` (each field optional).  Modelled from the spec, see
`CategoryFilter`. -/
structure ProductFilterOptions where
  searchTerm : Option String
  category : Option CategoryFilter
  sortBy : Option SortField

/-- `applyFilters` from `src/tests/helpers/products-helpers.ts`: starting from
the input, apply the search filter, then the category filter, then the sort,
each guarded by JavaScript truthiness of its option (`if (options.searchTerm)`
is false both for an absent option and for a present empty string; a present
category or sort value is one of the fixed non-empty strings, so for those
truthiness is presence). -/
def applyFilters (products : List Product) (options : ProductFilterOptions) :
    List Product :=
  let result := products
  let result := match options.searchTerm with
    | some term => if term = "" then result else filterProductsBySearch result term
    | none => result
  let result := match options.category with
    | some c => filterProductsByCategory result c.toName
    | none => result
  let result := match options.sortBy with
    | some f => sortProducts result f
    | none => result
  result

/-- The spec's search stage: identity when the option is absent. -/
def searchStage (term : Option String) (products : List Product) : List Product :=
  match term with
  | none => products
  | some t => filterProductsBySearch products t

/-- The spec's category stage: identity when the option is absent. -/
def categoryStage (category : Option CategoryFilter) (products : List Product) :
    List Product :=
  match category with
  | none => products
  | some c => filterProductsByCategory products c.toName

/-- The spec's sort stage: identity when the option is absent. -/
def sortStage (sortBy : Option SortField) (products : List Product) : List Product :=
  match sortBy with
  | none => products
  | some f => sortProducts products f

/-! ## Fixture seeder (`ensureProductsExist` in
`src/tests/helpers/storage-helpers.ts`) -/

/-- `{...product, id, createdAt: now, updatedAt: now}`: the entity built for a
fixture inside `ensureProductsExist`. -/
def mkProduct (product : TestProductData) (id now : String) : Product :=
  { id := id, sku := product.sku, name := product.name,
    description := product.description, category := product.category,
    price := product.price, stock := product.stock,
    lowStockThreshold := product.lowStockThreshold, imageUrl := product.imageUrl,
    createdAt := now, updatedAt := now }

/-- One step of the seeding map in `ensureProductsExist`: take the next id
from the incrementing `timestamp` counter, record it in `newProductsWithIds`,
and append the built entity. -/
def seedStep (now : String) (acc : List Product × List String × Nat)
    (product : TestProductData) : List Product × List String × Nat :=
  match acc with
  | (newProducts, newProductsWithIds, timestamp) =>
      let id := toString timestamp
      (newProducts ++ [mkProduct product id now],
        newProductsWithIds ++ [id], timestamp + 1)

/-- `ensureProductsExist` from `src/tests/helpers/storage-helpers.ts`: read
the existing collection (`localStorage.getItem(key) || '[]'`), collect the
existing SKUs, keep only the fixtures whose SKU is not among them, build an
entity for each kept fixture with ids from an incrementing wall-clock counter
(`Date.now()`, the parameter `timestamp`) and both timestamps set to `now`
(`new Date().toISOString()`), append them to the existing collection, store
it back, and return the ids of the entities actually added.  The result is
(the stored collection, the returned id list). -/
def ensureProductsExist (store : Option (List Product))
    (productsToEnsure : List TestProductData) (timestamp : Nat) (now : String) :
    List Product × List String :=
  let existingProducts := store.getD []
  let existingSKUs := existingProducts.map (fun p => p.sku)
  let productsToAdd :=
    productsToEnsure.filter (fun product => !(existingSKUs.contains product.sku))
  let folded := productsToAdd.foldl (seedStep now) ([], [], timestamp)
  (existingProducts ++ folded.1, folded.2.1)

/-- The ids the seeding loop generates for a fixture batch: one per fixture,
from the incrementing counter. -/
def seedIds (timestamp : Nat) : List TestProductData → List String
  | [] => []
  | _ :: fs => toString timestamp :: seedIds (timestamp + 1) fs

/-- The entities the seeding loop builds for a fixture batch. -/
def seedProducts (timestamp : Nat) (now : String) :
    List TestProductData → List Product
  | [] => []
  | f :: fs => mkProduct f (toString timestamp) now :: seedProducts (timestamp + 1) now fs

/-- Closed form of the seeding fold. -/
theorem seedFold_eq (now : String) (fs : List TestProductData)
    (ps : List Product) (ids : List String) (ts : Nat) :
    fs.foldl (seedStep now) (ps, ids, ts) =
      (ps ++ seedProducts ts now fs, ids ++ seedIds ts fs, ts + fs.length) := by
  induction fs generalizing ps ids ts with
  | nil => simp [seedProducts, seedIds]
  | cons f fs ih =>
      rw [List.foldl_cons]
      show (fs.foldl (seedStep now)
        (ps ++ [mkProduct f (toString ts) now], ids ++ [toString ts], ts + 1)) = _
      rw [ih]
      simp [seedProducts, seedIds]
      omega

/-- Closed form of `ensureProductsExist`: the stored collection is the
existing one followed by one freshly built entity per fixture whose SKU was
not already present, and the returned ids are those entities' ids. -/
theorem ensureProductsExist_eq (store : Option (List Product))
    (fixtures : List TestProductData) (ts : Nat) (now : String) :
    ensureProductsExist store fixtures ts now =
      ((store.getD []) ++
          seedProducts ts now
            (fixtures.filter
              (fun f => !(((store.getD []).map (fun p => p.sku)).contains f.sku))),
        seedIds ts
          (fixtures.filter
            (fun f => !(((store.getD []).map (fun p => p.sku)).contains f.sku)))) := by
  show ((store.getD []) ++
      (List.foldl (seedStep now) ([], [], ts) _).1,
    (List.foldl (seedStep now) ([], [], ts) _).2.1) = _
  rw [seedFold_eq]
  simp

/-- The built entities carry exactly the fixtures' SKUs. -/
theorem seedProducts_map_sku (ts : Nat) (now : String)
    (fs : List TestProductData) :
    (seedProducts ts now fs).map (fun p => p.sku) = fs.map (fun f => f.sku) := by
  induction fs generalizing ts with
  | nil => rfl
  | cons f fs ih => simp [seedProducts, mkProduct, ih]

/-- The built entities carry exactly the generated ids. -/
theorem seedProducts_map_id (ts : Nat) (now : String)
    (fs : List TestProductData) :
    (seedProducts ts now fs).map (fun p => p.id) = seedIds ts fs := by
  induction fs generalizing ts with
  | nil => rfl
  | cons f fs ih => simp [seedProducts, seedIds, mkProduct, ih]

/-- One id per seeded fixture. -/
theorem seedIds_length (ts : Nat) (fs : List TestProductData) :
    (seedIds ts fs).length = fs.length := by
  induction fs generalizing ts with
  | nil => rfl
  | cons f fs ih => simp [seedIds, ih]

/-! ## Claims C3, C4, C8 -/

/-- Claim C3: for every product list, `calculateExpectedStats` returns
`totalProducts` equal to the length of the list, `lowStockItems` equal to the
number of products with `stock ≤ lowStockThreshold`, and `totalValue` equal to
the sum over all products of `price × stock`. -/
theorem C3_stats_formula (products : List Product) :
    (calculateExpectedStats products).totalProducts = products.length ∧
    (calculateExpectedStats products).lowStockItems =
      products.countP (fun p => p.stock ≤ p.lowStockThreshold) ∧
    (calculateExpectedStats products).totalValue =
      (products.map (fun p => p.price * (p.stock : ℚ))).sum := by
  refine ⟨rfl, ?_, ?_⟩
  · simp [calculateExpectedStats, getLowStockProducts, List.countP_eq_length_filter]
  · show products.foldl (fun sum p => sum + p.price * (p.stock : ℚ)) 0 = _
    rw [← List.foldl_map (fun p : Product => p.price * (p.stock : ℚ)) (· + ·)]
    rw [List.sum_eq_foldl]

/-- Claim C4: `isValidAdjustment currentStock delta` is `true` exactly when
`currentStock + delta ≥ 0`; in particular it accepts `(5, -5)` and rejects
`(5, -6)` and `(0, -1)`. -/
theorem C4_adjustment_legality :
    (∀ currentStock adjustment : Int,
        isValidAdjustment currentStock adjustment = true ↔
          currentStock + adjustment ≥ 0) ∧
    isValidAdjustment 5 (-5) = true ∧
    isValidAdjustment 5 (-6) = false ∧
    isValidAdjustment 0 (-1) = false := by
  refine ⟨fun s d => ?_, by decide, by decide, by decide⟩
  simp [isValidAdjustment]

/-- Claim C8: `getProductsFromLocalStorage` fails (with the missing-store
error) exactly when the key was never initialized, and an initialized-but-empty
collection is returned as the empty list, not an error. -/
theorem C8_missing_store (store : Option (List Product)) :
    ((∃ e, getProductsFromLocalStorage store = Except.error e) ↔ store = none) ∧
    getProductsFromLocalStorage none =
      Except.error ("No products found in localStorage with key: " ++ STORAGE_KEY) ∧
    getProductsFromLocalStorage (some []) = Except.ok [] := by
  refine ⟨?_, rfl, rfl⟩
  cases store <;> simp [getProductsFromLocalStorage]

/-- Claim C5: `filterProductsBySearch` keeps exactly the products whose `name`
or `sku` contains the term as a case-insensitive substring, with the empty term
returning the list unchanged; `filterProductsByCategory` keeps exactly the
products whose `category` equals the argument, with the sentinel `"all"`
returning the list unchanged. -/
theorem C5_filter_semantics :
    (∀ (products : List Product) (term : String),
        filterProductsBySearch products term =
          products.filter (fun p =>
            ciSubstringMatch term p.name || ciSubstringMatch term p.sku)) ∧
    (∀ products : List Product, filterProductsBySearch products "" = products) ∧
    (∀ (products : List Product) (category : String), category ≠ "all" →
        filterProductsByCategory products category =
          products.filter (fun p => p.category == category)) ∧
    (∀ products : List Product, filterProductsByCategory products "all" = products) := by
  refine ⟨fun products term => ?_, fun products => by simp [filterProductsBySearch],
    fun products category h => by simp [filterProductsByCategory, h],
    fun products => by simp [filterProductsByCategory]⟩
  by_cases h : term = ""
  · subst h
    simp [filterProductsBySearch, ciSubstringMatch, strIncludes,
      strToLower_empty_data, charListIncludes_nil]
  · simp [filterProductsBySearch, h, ciSubstringMatch]

/-- Claim C7: `sortProducts` returns a permutation of its input that is sorted
ascending on the requested field, and the sort is stable: any class of
products tied under the comparator keeps its input order (its `filter`
sublist is unchanged by the sort).  The input itself is a pure value, so it is
left unchanged by construction. -/
theorem C7_sort_contract (products : List Product) (sortBy : SortField) :
    List.Perm (sortProducts products sortBy) products ∧
    List.Pairwise (sortKeyLE sortBy) (sortProducts products sortBy) ∧
    (∀ q : Product → Bool,
        (∀ a b : Product, q a = true → q b = true → sortComparator sortBy a b = 0) →
        (sortProducts products sortBy).filter q = products.filter q) := by
  refine ⟨List.mergeSort_perm products (sortLe sortBy), ?_, ?_⟩
  · have h := List.sorted_mergeSort
      (fun a b c hab hbc => sortLe_trans sortBy a b c hab hbc)
      (fun a b => sortLe_total sortBy a b) products
    exact h.imp (fun hab => (sortLe_iff sortBy _ _).mp hab)
  · intro q hq
    have hsub : List.Sublist (products.filter q) products :=
      List.filter_sublist products
    have hpw : (products.filter q).Pairwise (fun a b => sortLe sortBy a b = true) := by
      apply List.pairwise_of_forall_mem_list
      intro a ha b hb
      have ha' := (List.mem_filter.mp ha).2
      have hb' := (List.mem_filter.mp hb).2
      simp [sortLe, hq a b ha' hb']
    have hstable : List.Sublist (products.filter q) (sortProducts products sortBy) :=
      List.sublist_mergeSort
        (fun a b c hab hbc => sortLe_trans sortBy a b c hab hbc)
        (fun a b => sortLe_total sortBy a b) hpw hsub
    have hq' : (products.filter q).filter q = products.filter q :=
      List.filter_eq_self.mpr (fun a ha => (List.mem_filter.mp ha).2)
    have h2 : List.Sublist (products.filter q)
        ((sortProducts products sortBy).filter q) := by
      have h3 := hstable.filter q
      rwa [hq'] at h3
    have hperm : List.Perm ((sortProducts products sortBy).filter q)
        (products.filter q) :=
      (List.mergeSort_perm products (sortLe sortBy)).filter q
    exact (h2.eq_of_length hperm.length_eq.symm).symm

/-- Claim C6: `applyFilters` is the composition of the search filter, the
category filter and the sort, in that fixed order, each stage being the
identity when its option is absent. -/
theorem C6_filter_composition (products : List Product)
    (options : ProductFilterOptions) :
    applyFilters products options =
      sortStage options.sortBy
        (categoryStage options.category (searchStage options.searchTerm products)) := by
  obtain ⟨searchTerm, category, sortBy⟩ := options
  cases searchTerm with
  | none =>
      cases category <;> cases sortBy <;>
        simp [applyFilters, searchStage, categoryStage, sortStage]
  | some term =>
      by_cases h : term = ""
      · subst h
        cases category <;> cases sortBy <;>
          simp [applyFilters, searchStage, categoryStage, sortStage,
            filterProductsBySearch]
      · cases category <;> cases sortBy <;>
          simp [applyFilters, searchStage, categoryStage, sortStage, h]

/-- Boolean `contains` on lists agrees with membership (the embedding of
JavaScript `Set.has` over the collected SKUs). -/
theorem contains_iff_mem {α : Type _} [BEq α] [LawfulBEq α] (l : List α) (a : α) :
    l.contains a = true ↔ a ∈ l := by
  rw [show l.contains a = l.elem a from rfl]
  exact List.elem_iff

/-- Every fixture's SKU is present in the collection produced by a first
seeding call: either it was already stored, or the first call inserted an
entity carrying it. -/
theorem sku_mem_after_seed (store : Option (List Product))
    (fixtures : List TestProductData) (ts : Nat) (now : String) :
    ∀ f ∈ fixtures,
      (((ensureProductsExist store fixtures ts now).1.map
          (fun p => p.sku)).contains f.sku) = true := by
  intro f hf
  rw [ensureProductsExist_eq]
  rw [List.map_append, seedProducts_map_sku, contains_iff_mem, List.mem_append]
  by_cases hc :
      (((store.getD []).map (fun p => p.sku)).contains f.sku) = true
  · rw [contains_iff_mem] at hc
    exact Or.inl hc
  · refine Or.inr (List.mem_map_of_mem _ (List.mem_filter.mpr ⟨hf, ?_⟩))
    rw [Bool.not_eq_true] at hc
    rw [hc]
    rfl

/-- Claim C1: seeding is idempotent — a second call with the same fixture list
leaves the stored collection exactly as the first call left it and inserts
nothing (it returns no ids), for every starting store and wall-clock values. -/
theorem C1_idempotent_seeding (store : Option (List Product))
    (fixtures : List TestProductData) (ts1 ts2 : Nat) (now1 now2 : String) :
    ensureProductsExist (some (ensureProductsExist store fixtures ts1 now1).1)
        fixtures ts2 now2 =
      ((ensureProductsExist store fixtures ts1 now1).1, []) := by
  rw [ensureProductsExist_eq (some (ensureProductsExist store fixtures ts1 now1).1)]
  have hnil :
      fixtures.filter
        (fun f =>
          !((((some (ensureProductsExist store fixtures ts1 now1).1).getD
              []).map (fun p => p.sku)).contains f.sku)) = [] := by
    rw [List.filter_eq_nil_iff]
    intro f hf
    have h := sku_mem_after_seed store fixtures ts1 now1 f hf
    simp only [Option.getD_some, h, Bool.not_true]
    exact Bool.false_ne_true
  rw [hnil]
  simp [seedProducts, seedIds]

/-- Claim C9: the seeder's frame and return value.  The final collection is
the starting one (unchanged, in its original order) with the freshly built
entities appended — exactly one per fixture whose SKU was not already stored —
and the returned id list is exactly those new entities' ids (one per inserted
fixture, none for a skipped duplicate). -/
theorem C9_seeder_frame (store : Option (List Product))
    (fixtures : List TestProductData) (ts : Nat) (now : String) :
    (ensureProductsExist store fixtures ts now).1 =
        (store.getD []) ++
          seedProducts ts now
            (fixtures.filter
              (fun f => !(((store.getD []).map (fun p => p.sku)).contains f.sku))) ∧
    ((ensureProductsExist store fixtures ts now).1.take
        (store.getD []).length = store.getD []) ∧
    (ensureProductsExist store fixtures ts now).2 =
        ((ensureProductsExist store fixtures ts now).1.drop
          (store.getD []).length).map (fun p => p.id) ∧
    (ensureProductsExist store fixtures ts now).2.length =
        (fixtures.filter
          (fun f => !(((store.getD []).map (fun p => p.sku)).contains f.sku))).length := by
  rw [ensureProductsExist_eq]
  refine ⟨rfl, ?_, ?_, ?_⟩
  · simp
  · simp [seedProducts_map_id]
  · simp [seedIds_length]

/-- The two-fixture batch of claim C10: distinct fixtures sharing one SKU. -/
def dupFixtureA : TestProductData :=
  { sku := "DUP-1", name := "Dup A", description := "first duplicate",
    category := "Electronics", price := 2, stock := 10, lowStockThreshold := 5,
    imageUrl := none }

/-- Second fixture of the C10 batch, same SKU as `dupFixtureA`. -/
def dupFixtureB : TestProductData :=
  { dupFixtureA with name := "Dup B", description := "second duplicate" }

/-- Claim C10: deduplication is computed only against the SKUs stored before
the call, not within the input batch: one call on an initialized-but-empty
store with two fixtures sharing a fresh SKU inserts both (two ids returned)
and leaves the store with a duplicated SKU. -/
theorem C10_intra_batch_duplicates :
    ((ensureProductsExist (some []) [dupFixtureA, dupFixtureB] 100
        "2025-01-01T00:00:00.000Z").1.map (fun p => p.sku) = ["DUP-1", "DUP-1"]) ∧
    ¬ ((ensureProductsExist (some []) [dupFixtureA, dupFixtureB] 100
        "2025-01-01T00:00:00.000Z").1.map (fun p => p.sku)).Nodup ∧
    (ensureProductsExist (some []) [dupFixtureA, dupFixtureB] 100
        "2025-01-01T00:00:00.000Z").2.length = 2 := by
  refine ⟨?_, ?_, ?_⟩ <;> decide

/-! ## Full-circle scenario (claim C2)

The scenario of `src/tests/e2e/multi-user-collaboration.spec.ts`: create one
product, adjust its stock, delete it, and compare the dashboard statistics
with the baseline.  The create/adjust/delete flows live in the application
under test, not in this repository, so they are modelled from the spec. -/

/-- Modelled from the spec: one application of an Adjustment (§3: "a signed
integer delta applied to one entity's stock; legality = `stock + delta >= 0`").
The application rejects an illegal adjustment (`if (product.stock + adjustment
< 0) { error }`, quoted in `src/tests/helpers/inventory-helpers.ts`), leaving
the entity unchanged. -/
def adjustOne (p : Product) (delta : Int) : Product :=
  if isValidAdjustment p.stock delta then { p with stock := p.stock + delta }
  else p

/-- Modelled from the spec: the application's stock-adjustment flow writes the
adjusted stock back to the one entity with the targeted surrogate id, leaving
every other entity unchanged. -/
def adjustStockById (products : List Product) (targetId : String) (delta : Int) :
    List Product :=
  products.map (fun p => if p.id = targetId then adjustOne p delta else p)

/-- Modelled from the spec: the application's delete flow removes the entity
with the given surrogate id from the canonical collection. -/
def deleteProductById (products : List Product) (targetId : String) :
    List Product :=
  products.filter (fun p => !(p.id == targetId))

/-- A sequence of stock adjustments applied to one entity. -/
def runAdjustments (products : List Product) (targetId : String)
    (deltas : List Int) : List Product :=
  deltas.foldl (fun ps d => adjustStockById ps targetId d) products

/-- A delta sequence is legal when each delta keeps the running stock
non-negative (`isValidAdjustment` at every step). -/
def legalAdjustmentSeq (stock : Int) : List Int → Bool
  | [] => true
  | d :: ds => isValidAdjustment stock d && legalAdjustmentSeq (stock + d) ds

/-- The full business cycle of the scenario: append the new entity, adjust its
stock through the whole delta sequence, then delete it. -/
def fullCircleScenario (baseline : List Product) (e : Product)
    (deltas : List Int) : List Product :=
  deleteProductById (runAdjustments (baseline ++ [e]) e.id deltas) e.id

/-- Adjusting an entity never changes its id. -/
theorem adjustOne_id (p : Product) (delta : Int) :
    (adjustOne p delta).id = p.id := by
  unfold adjustOne
  split <;> rfl

/-- A whole adjustment sequence never changes the entity's id. -/
theorem foldl_adjustOne_id (e : Product) (deltas : List Int) :
    (deltas.foldl adjustOne e).id = e.id := by
  induction deltas generalizing e with
  | nil => rfl
  | cons d ds ih => rw [List.foldl_cons, ih (adjustOne e d), adjustOne_id]

/-- Adjustments addressed to an id no baseline entity carries only rewrite the
appended entity. -/
theorem runAdjustments_append_singleton (baseline : List Product) (x : Product)
    (targetId : String) (deltas : List Int)
    (hbase : ∀ p ∈ baseline, p.id ≠ targetId) (hx : x.id = targetId) :
    runAdjustments (baseline ++ [x]) targetId deltas =
      baseline ++ [deltas.foldl adjustOne x] := by
  induction deltas generalizing x with
  | nil => simp [runAdjustments]
  | cons d ds ih =>
      have hstep : adjustStockById (baseline ++ [x]) targetId d =
          baseline ++ [adjustOne x d] := by
        unfold adjustStockById
        rw [List.map_append]
        congr 1
        · rw [List.map_congr_left (fun p hp => if_neg (hbase p hp))]
          exact List.map_id' baseline
        · simp [hx]
      show runAdjustments (adjustStockById (baseline ++ [x]) targetId d)
          targetId ds = _
      rw [hstep, ih (adjustOne x d) (by rw [adjustOne_id, hx])]
      simp

/-- Claim C2: the full-circle invariant.  If a scenario appends one entity
whose SKU is unique in the baseline (and whose surrogate id is fresh, which is
what makes "that entity" well-defined for the by-id adjustment and delete
flows), applies any legal sequence of stock adjustments to it and then removes
it, the dashboard statistics return exactly to their baseline values. -/
theorem C2_full_circle (baseline : List Product) (e : Product)
    (deltas : List Int)
    (hsku : e.sku ∉ baseline.map (fun p => p.sku))
    (hid : e.id ∉ baseline.map (fun p => p.id))
    (hlegal : legalAdjustmentSeq e.stock deltas = true) :
    calculateExpectedStats (fullCircleScenario baseline e deltas) =
      calculateExpectedStats baseline := by
  have hbase : ∀ p ∈ baseline, p.id ≠ e.id := by
    intro p hp h
    exact hid (h ▸ List.mem_map_of_mem (fun p => p.id) hp)
  have hrun := runAdjustments_append_singleton baseline e e.id deltas hbase rfl
  have hfinalid : (deltas.foldl adjustOne e).id = e.id :=
    foldl_adjustOne_id e deltas
  unfold fullCircleScenario
  rw [hrun]
  unfold deleteProductById
  rw [List.filter_append]
  have h1 : baseline.filter (fun p => !(p.id == e.id)) = baseline := by
    apply List.filter_eq_self.mpr
    intro p hp
    simp [hbase p hp]
  have h2 : [deltas.foldl adjustOne e].filter (fun p => !(p.id == e.id)) = [] := by
    simp [List.filter, hfinalid]
  rw [h1, h2, List.append_nil]

/-- A baseline product for the C2 witness. -/
def witnessBase : Product :=
  { id := "100", sku := "BASE-1", name := "Base", description := "baseline",
    category := "Hardware", price := 3, stock := 2, lowStockThreshold := 5,
    imageUrl := none, createdAt := "t0", updatedAt := "t0" }

/-- The entity the C2 witness creates and disposes of. -/
def witnessExtra : Product :=
  { id := "101", sku := "EXTRA-1", name := "Extra", description := "scenario",
    category := "Electronics", price := 2, stock := 10, lowStockThreshold := 5,
    imageUrl := none, createdAt := "t1", updatedAt := "t1" }

/-- Witness for claim C2 at a concrete scenario: baseline of one product, a
fresh entity, the legal adjustment sequence `[-6, +3]`. -/
theorem C2_full_circle_witness :
    calculateExpectedStats (fullCircleScenario [witnessBase] witnessExtra [-6, 3]) =
      calculateExpectedStats [witnessBase] :=
  C2_full_circle [witnessBase] witnessExtra [-6, 3] (by decide) (by decide)
    (by decide)

end QAOracle
